import Mathlib

/-!
Shallow embedding of the goplus/dql lazy query algebra (packages `util` and
`html`) and proofs of the specification claims about it.

Go's `iter.Seq[T]` is a push producer `func(yield func(T) bool)`: the producer
calls `yield` once per item and is expected to stop as soon as `yield` returns
`false`.  Both the producer closures and the consumer callbacks of the Go code
capture mutable local state (`ok`, `val`, `err`, `first`), so a consumer is
embedded as a state-threaded step function `σ → T → σ × Bool` and a producer as
a function polymorphic in the consumer state that returns the final consumer
state.
-/

set_option maxHeartbeats 1000000

/-- A Go `iter.Seq[T]` producer: given a state-threaded consumer callback, it
drives the callback and returns the final consumer state. -/
def Producer (T : Type) : Type 1 :=
  (σ : Type) → (σ → T → σ × Bool) → σ → σ

/-- Drives a consumer over a list, stopping at the first `false`; returns the
final state together with `true` iff the whole list was consumed without a
stop signal.  This is the canonical semantics of a well-behaved `iter.Seq`
over a known list of items. -/
def runListB {σ T : Type} (f : σ → T → σ × Bool) : σ → List T → σ × Bool
  | s, [] => (s, true)
  | s, t :: ts =>
    match f s t with
    | (s', true) => runListB f s' ts
    | (s', false) => (s', false)

/-- The well-behaved producer that yields exactly the items of `L` in order,
honouring the consumer's stop signal. -/
def seqOfList {T : Type} (L : List T) : Producer T :=
  fun _ f s => (runListB f s L).1

/-- Go's `nil` sequence value (the zero value of an `iter.Seq` field).  The
code paths verified here never drive it; it only occupies the `Data` slot of a
failed-state set. -/
def nilSeq {T : Type} : Producer T :=
  fun _ _ s => s

/-- The trace of items a producer feeds to a consumer whose continue/stop
decision `d` may depend on the whole history of items consumed so far.  Each
invocation of the consumer appends the received item to the trace. -/
def produceTrace {T : Type} (p : Producer T) (d : List T → Bool) : List T :=
  p (List T) (fun acc t => (acc ++ [t], d (acc ++ [t]))) []

/-- Go error values, modelled by kind: the two sentinel errors the core
creates, plus opaque external errors (`errors.New`-style values carried
verbatim from parsing or stream opening), identified by their message. -/
inductive GoError : Type where
  | notFound
  | multiEntities
  | errNew (msg : String)
deriving DecidableEq

/-- `Value`/`Value[T]`: a produced item that is itself a value-or-error pair
(Go struct with fields `X_0 T` and `X_1 error`).  In Go both `util.Value[T]`
and `html.Value` are type aliases of the same struct shape. -/
structure GoValue (T : Type) where
  X_0 : T
  X_1 : Option GoError
deriving DecidableEq

/-- Modelled from the spec: the node kinds of the external tree representation
(`golang.org/x/net/html.NodeType`); the core only distinguishes element nodes
from the rest. -/
inductive NodeType : Type where
  | errorNode
  | textNode
  | documentNode
  | elementNode
  | commentNode
  | doctypeNode
  | rawNode
deriving DecidableEq, BEq

/-- Modelled from the spec: one (key, value) attribute of the external tree
representation (`html.Attribute`; the namespace field is irrelevant here). -/
structure Attribute : Type where
  Key : String
  Val : String
deriving DecidableEq

/-- Modelled from the spec: an element/text node of the parsed tree, carrying
its kind, its tag/text data, an ordered attribute list and an ordered list of
direct children (`html.Node`). -/
inductive Node : Type where
  | mk (nType : NodeType) (nData : String) (nAttr : List Attribute)
       (children : List Node)

/-- The node kind (Go field `Node.Type`). -/
def Node.nType : Node → NodeType
  | .mk t _ _ _ => t

/-- The tag name / text data (Go field `Node.Data`). -/
def Node.nData : Node → String
  | .mk _ d _ _ => d

/-- The ordered attribute list (Go field `Node.Attr`). -/
def Node.nAttr : Node → List Attribute
  | .mk _ _ a _ => a

/-- Modelled from the spec: the ordered list of direct children
(`html.Node.ChildNodes`). -/
def Node.childNodes : Node → List Node
  | .mk _ _ _ c => c

/-- Depth-first preorder traversal of a forest: each root, then its
descendants, then the rest of the forest. -/
def descList : List Node → List Node
  | [] => []
  | Node.mk t d a cs :: rest =>
    Node.mk t d a cs :: (descList cs ++ descList rest)

/-- Modelled from the spec: all strict descendants of a node in depth-first
document order (`html.Node.Descendants`). -/
def Node.descendants (n : Node) : List Node :=
  descList n.childNodes

namespace util

/-- `util.ErrNotFound`. -/
def ErrNotFound : GoError := .notFound

/-- `util.ErrMultiEntities`. -/
def ErrMultiEntities : GoError := .multiEntities

/-- `util.NopIter`: a no-operation iterator that yields no values. -/
def NopIter {T : Type} : Producer T :=
  fun _ _ s => s

/-- `util.Value[T]` (a Go type alias of the shared struct shape). -/
abbrev Value (T : Type) := GoValue T

/-- `util.ValueSet[T]`: a lazily produced sequence of Values plus a possible
terminal error. -/
structure ValueSet (T : Type) : Type 1 where
  Data : Producer (Value T)
  Err : Option GoError

/-- `util.ValueSet.XGo_Enum`: returns an iterator over the Values. -/
def ValueSet.XGo_Enum {T : Type} (p : ValueSet T) : Producer (Value T) :=
  match p.Err with
  | some _ => NopIter
  | none => p.Data

/-- `util.ValueSet.XGo_0`: the first value, or `ErrNotFound` if empty. -/
def ValueSet.XGo_0 {T : Type} [Inhabited T] (p : ValueSet T) :
    T × Option GoError :=
  match p.Err with
  | some e => (default, some e)
  | none =>
    p.Data (T × Option GoError)
      (fun _ v => ((v.X_0, v.X_1), false))
      (default, some ErrNotFound)

/-- `util.ValueSet.XGo_1`: the unique value; `ErrNotFound` if empty,
`ErrMultiEntities` if more than one. -/
def ValueSet.XGo_1 {T : Type} [Inhabited T] (p : ValueSet T) :
    T × Option GoError :=
  match p.Err with
  | some e => (default, some e)
  | none =>
    let r := p.Data (T × Option GoError × Bool)
      (fun st v =>
        match st with
        | (val, err, first) =>
          match first with
          | true => ((v.X_0, v.X_1, false), true)
          | false => ((val, some ErrMultiEntities, false), false))
      (default, some ErrNotFound, true)
    (r.1, r.2.1)

end util

namespace html

/-- `html.ErrNotFound`. -/
def ErrNotFound : GoError := .notFound

/-- `html.ErrMultiEntities`. -/
def ErrMultiEntities : GoError := .multiEntities

/-- `html.nopIter`: a no-operation iterator that yields no values. -/
def nopIter {T : Type} : Producer T :=
  fun _ _ s => s

/-- `html.Value` (a Go type alias of the shared struct shape, at `string`). -/
abbrev Value := GoValue String

/-- `html.ValueSet`: a set of attribute Values. -/
structure ValueSet : Type 1 where
  Data : Producer Value
  Err : Option GoError

/-- `html.ValueSet.XGo_Enum`: returns an iterator over the Values. -/
def ValueSet.XGo_Enum (p : ValueSet) : Producer Value :=
  match p.Err with
  | some _ => nopIter
  | none => p.Data

/-- `html.ValueSet.XGo_0`: the first value, or `ErrNotFound` if empty. -/
def ValueSet.XGo_0 (p : ValueSet) : String × Option GoError :=
  match p.Err with
  | some e => ("", some e)
  | none =>
    p.Data (String × Option GoError)
      (fun _ v => ((v.X_0, v.X_1), false))
      ("", some ErrNotFound)

/-- `html.ValueSet.XGo_1`: the unique value; `ErrNotFound` if empty,
`ErrMultiEntities` if more than one. -/
def ValueSet.XGo_1 (p : ValueSet) : String × Option GoError :=
  match p.Err with
  | some e => ("", some e)
  | none =>
    let r := p.Data (String × Option GoError × Bool)
      (fun st v =>
        match st with
        | (val, err, first) =>
          match first with
          | true => ((v.X_0, v.X_1, false), true)
          | false => ((val, some ErrMultiEntities, false), false))
      ("", some ErrNotFound, true)
    (r.1, r.2.1)

/-- `html.NodeSet`: a set of HTML nodes. -/
structure NodeSet : Type 1 where
  Data : Producer Node
  Err : Option GoError

/-- `html.NodeSet.XGo_Enum`: returns an iterator over the nodes. -/
def NodeSet.XGo_Enum (p : NodeSet) : Producer Node :=
  match p.Err with
  | some _ => nopIter
  | none => p.Data

/-- `html.NodeSet.XGo_Node`: filters the nodes, keeping the element nodes
whose tag equals `name`. -/
def NodeSet.XGo_Node (p : NodeSet) (name : String) : NodeSet :=
  match p.Err with
  | some _ => p
  | none =>
    { Err := none
      Data := fun σ yield s0 =>
        p.Data σ
          (fun s node =>
            match node.nType == NodeType.elementNode && node.nData == name with
            | true => yield s node
            | false => (s, true))
          s0 }

/-- `html.NodeSet.XGo_Child`: the direct children of every node of the set,
flattened in receiver order.  The mutable `ok` flag of the Go closure is the
`Bool` component threaded through the consumer state. -/
def NodeSet.XGo_Child (p : NodeSet) : NodeSet :=
  match p.Err with
  | some _ => p
  | none =>
    { Err := none
      Data := fun σ yield s0 =>
        (p.Data (σ × Bool)
          (fun sb node =>
            let sb' := seqOfList node.childNodes (σ × Bool)
              (fun sb c =>
                let r := yield sb.1 c
                ((r.1, r.2), r.2))
              sb
            (sb', sb'.2))
          (s0, true)).1 }

/-- `html.NodeSet.XGo_Any`: every node of the set followed by all of its
descendants, in document order. -/
def NodeSet.XGo_Any (p : NodeSet) : NodeSet :=
  match p.Err with
  | some _ => p
  | none =>
    { Err := none
      Data := fun σ yield s0 =>
        (p.Data (σ × Bool)
          (fun sb node =>
            let r := yield sb.1 node
            let sb' :=
              match r.2 with
              | true =>
                seqOfList node.descendants (σ × Bool)
                  (fun sb c =>
                    let r2 := yield sb.1 c
                    ((r2.1, r2.2), r2.2))
                  (r.1, r.2)
              | false => (r.1, r.2)
            (sb', sb'.2))
          (s0, true)).1 }

/-- The Go `for _, attr := range node.Attr` loop of `XGo_Attr`: on the first
attribute whose key matches it returns `yield`'s answer; if none matches it
yields a `NotFound` Value, discards `yield`'s answer and continues. -/
def attrLoop {σ : Type} (yield : σ → Value → σ × Bool) (name : String)
    (s : σ) : List Attribute → σ × Bool
  | [] => ((yield s ⟨"", some ErrNotFound⟩).1, true)
  | a :: rest =>
    match a.Key == name with
    | true => yield s ⟨a.Val, none⟩
    | false => attrLoop yield name s rest

/-- `html.NodeSet.XGo_Attr`: one Value per node — the value of the named
attribute, or `ErrNotFound` when the node lacks it. -/
def NodeSet.XGo_Attr (p : NodeSet) (name : String) : ValueSet :=
  match p.Err with
  | some e => { Data := nilSeq, Err := some e }
  | none =>
    { Err := none
      Data := fun σ yield s0 =>
        p.Data σ (fun s node => attrLoop yield name s node.nAttr) s0 }

/-- `html.NodeSet.XGo_0`: the first node, or `ErrNotFound` if empty. -/
def NodeSet.XGo_0 (p : NodeSet) : Option Node × Option GoError :=
  match p.Err with
  | some e => (none, some e)
  | none =>
    p.Data (Option Node × Option GoError)
      (fun _ n => ((some n, none), false))
      (none, some ErrNotFound)

/-- `html.NodeSet.XGo_1`: the unique node; `ErrNotFound` if empty,
`ErrMultiEntities` if more than one. -/
def NodeSet.XGo_1 (p : NodeSet) : Option Node × Option GoError :=
  match p.Err with
  | some e => (none, some e)
  | none =>
    let r := p.Data (Option Node × Option GoError × Bool)
      (fun st n =>
        match st with
        | (val, err, first) =>
          match first with
          | true => ((some n, none, false), true)
          | false => ((val, some ErrMultiEntities, false), false))
      (none, some ErrNotFound, true)
    (r.1, r.2.1)

end html

namespace html

/-- Modelled from the spec: an `io.Reader` handed to the external parser is
characterized by the byte stream it delivers (`bytes.NewReader` makes such a
reader out of a `[]byte` verbatim, and `stream.Open` out of a location
string). -/
def ByteStream : Type := List Nat

/-- `html.New`: parses the document delivered by the reader and wraps the root
node as a one-item NodeSet, or a parse error as a failed-state NodeSet.  The
external parser `golang.org/x/net/html.Parse` is a parameter. -/
def New (parse : ByteStream → Except GoError Node) (r : ByteStream) :
    NodeSet :=
  match parse r with
  | .error err => { Data := nilSeq, Err := some err }
  | .ok doc => { Data := fun _ yield s => (yield s doc).1, Err := none }

/-- The dynamic argument of `html.Source` — one constructor per arm of the Go
type switch, plus `unsupported` for every other dynamic type. -/
inductive GoSource : Type 1 where
  | ofString (s : String)
  | ofBytes (b : ByteStream)
  | ofReader (r : ByteStream)
  | ofSeq (d : Producer Node)
  | ofNodeSet (ns : NodeSet)
  | unsupported

/-- The outcome of `html.Source`: a returned NodeSet, or a Go panic. -/
inductive SourceResult : Type 1 where
  | ok (ns : NodeSet)
  | panicked (msg : String)

/-- `html.Source`: normalizes an arbitrary source value into a NodeSet.  The
repo's `stream.Open` (not under src) and the external parser are parameters,
modelled from the spec's collaborator contracts. -/
def Source (parse : ByteStream → Except GoError Node)
    (opn : String → Except GoError ByteStream) : GoSource → SourceResult
  | .ofString v =>
    match opn v with
    | .error err => .ok { Data := nilSeq, Err := some err }
    | .ok f => .ok (New parse f)
  | .ofBytes v => .ok (New parse v)
  | .ofReader v => .ok (New parse v)
  | .ofSeq v => .ok { Data := v, Err := none }
  | .ofNodeSet v => .ok v
  | .unsupported => .panicked "dql/html.Source: unsupport source type"

end html

section Lemmas

variable {σ T : Type}

theorem runListB_append (f : σ → T → σ × Bool) (s : σ) (xs ys : List T) :
    runListB f s (xs ++ ys) =
      match runListB f s xs with
      | (s', true) => runListB f s' ys
      | (s', false) => (s', false) := by
  induction xs generalizing s with
  | nil => simp [runListB]
  | cons x xs ih =>
    simp only [List.cons_append, runListB]
    rcases h : f s x with ⟨s', c⟩
    cases c <;> simp [ih]

/-- The consumer that the inner loops of `XGo_Child` / `XGo_Any` build out of
the downstream `yield`: it stores `yield`'s verdict in the Go closure's `ok`
flag (the `Bool` component of the state) and propagates it. -/
def liftC (f : σ → T → σ × Bool) : (σ × Bool) → T → (σ × Bool) × Bool :=
  fun sb c =>
    let r := f sb.1 c
    ((r.1, r.2), r.2)

theorem runListB_liftC (f : σ → T → σ × Bool) (s : σ) (cs : List T) :
    runListB (liftC f) (s, true) cs =
      (((runListB f s cs).1, (runListB f s cs).2), (runListB f s cs).2) := by
  induction cs generalizing s with
  | nil => simp [runListB]
  | cons c cs ih =>
    simp only [runListB, liftC]
    rcases h : f s c with ⟨s', b⟩
    cases b <;> simp [ih]

end Lemmas

/-- Concatenation of the direct-children lists of a forest, in order. -/
def childConcat : List Node → List Node
  | [] => []
  | n :: rest => n.childNodes ++ childConcat rest

/-- Concatenation, in order, of each node followed by its descendants. -/
def anyConcat : List Node → List Node
  | [] => []
  | n :: rest => n :: (n.descendants ++ anyConcat rest)

section StepLemmas

variable {σ : Type}

/-- The outer consumer `XGo_Child` hands to the receiver's producer. -/
def childStep (f : σ → Node → σ × Bool) :
    (σ × Bool) → Node → (σ × Bool) × Bool :=
  fun sb node =>
    let sb' := seqOfList node.childNodes (σ × Bool) (liftC f) sb
    (sb', sb'.2)

/-- The outer consumer `XGo_Any` hands to the receiver's producer. -/
def anyStep (f : σ → Node → σ × Bool) :
    (σ × Bool) → Node → (σ × Bool) × Bool :=
  fun sb node =>
    let r := f sb.1 node
    let sb' :=
      match r.2 with
      | true => seqOfList node.descendants (σ × Bool) (liftC f) (r.1, r.2)
      | false => (r.1, r.2)
    (sb', sb'.2)

theorem runListB_childStep (f : σ → Node → σ × Bool) (s : σ) (L : List Node) :
    runListB (childStep f) (s, true) L =
      (((runListB f s (childConcat L)).1, (runListB f s (childConcat L)).2),
        (runListB f s (childConcat L)).2) := by
  induction L generalizing s with
  | nil => simp [runListB, childConcat]
  | cons n L ih =>
    simp only [childConcat, runListB_append, runListB, childStep, seqOfList,
      runListB_liftC]
    rcases h : runListB f s n.childNodes with ⟨s', c⟩
    cases c <;> simp [ih]

theorem runListB_anyStep (f : σ → Node → σ × Bool) (s : σ) (L : List Node) :
    runListB (anyStep f) (s, true) L =
      (((runListB f s (anyConcat L)).1, (runListB f s (anyConcat L)).2),
        (runListB f s (anyConcat L)).2) := by
  induction L generalizing s with
  | nil => simp [runListB, anyConcat]
  | cons n L ih =>
    simp only [anyConcat, runListB, anyStep]
    rcases hn : f s n with ⟨s1, c1⟩
    cases c1 with
    | false => simp [runListB]
    | true =>
      simp only [seqOfList, runListB_liftC, runListB_append]
      rcases hd : runListB f s1 n.descendants with ⟨s2, c2⟩
      cases c2 <;> simp [ih]

end StepLemmas

section AttrLemmas

/-- The per-node result of the attribute projection: the first attribute whose
key matches wins; a node without a matching attribute gives a `NotFound`
Value. -/
def attrProj (name : String) (n : Node) : GoValue String :=
  match n.nAttr.find? (fun a => a.Key == name) with
  | some a => ⟨a.Val, none⟩
  | none => ⟨"", some GoError.notFound⟩

/-- The always-continue tracing consumer. -/
def traceYield (T : Type) : List T → T → List T × Bool :=
  fun acc t => (acc ++ [t], true)

theorem attrLoop_trace (name : String) (acc : List html.Value)
    (attrs : List Attribute) :
    html.attrLoop (traceYield html.Value) name acc attrs =
      (acc ++ [match attrs.find? (fun a => a.Key == name) with
               | some a => (⟨a.Val, none⟩ : GoValue String)
               | none => ⟨"", some GoError.notFound⟩], true) := by
  induction attrs with
  | nil => simp [html.attrLoop, traceYield, html.ErrNotFound]
  | cons a rest ih =>
    simp only [html.attrLoop, List.find?]
    rcases h : a.Key == name with _ | _ <;> simp [h, traceYield, ih]

theorem attrStep_eq (name : String) :
    (fun (s : List html.Value) (node : Node) =>
        html.attrLoop (traceYield html.Value) name s node.nAttr)
      = fun s node => (s ++ [attrProj name node], true) := by
  funext s node
  rw [attrLoop_trace]
  rfl

theorem runListB_attr_trace (name : String) (acc : List html.Value)
    (L : List Node) :
    runListB (fun s node => html.attrLoop (traceYield html.Value) name s
        node.nAttr) acc L =
      (acc ++ L.map (attrProj name), true) := by
  rw [attrStep_eq]
  induction L generalizing acc with
  | nil => simp [runListB]
  | cons n L ih => simp [runListB, ih]

end AttrLemmas

/-- Sample element node `<a>` with no attributes. -/
def nodeA : Node := .mk .elementNode "a" [] []

/-- Sample element node `<b x="v">`. -/
def nodeB : Node := .mk .elementNode "b" [⟨"x", "v"⟩] []

/-- The full production of an attribute projection over a well-behaved
receiver sequence equals, item for item, the per-node projection. -/
theorem attrTrace_eq (name : String) (L : List Node) :
    produceTrace (html.NodeSet.XGo_Attr ⟨seqOfList L, none⟩ name).Data
        (fun _ => true)
      = L.map (attrProj name) := by
  have h := runListB_attr_trace name [] L
  calc produceTrace (html.NodeSet.XGo_Attr ⟨seqOfList L, none⟩ name).Data
          (fun _ => true)
      = (runListB (fun s node => html.attrLoop (traceYield html.Value) name s
          node.nAttr) [] L).1 := rfl
    _ = L.map (attrProj name) := by rw [h]; simp

/-- C1: a NodeSet in the failed state is passed through unchanged by
`XGo_Node`, `XGo_Child` and `XGo_Any` (the combinator returns the receiver
itself, so it is in the failed state with the same terminal error and the
backing producer is never applied), and `XGo_Attr` returns a failed-state
ValueSet with the same terminal error whose Data slot is Go's nil sequence —
in every case without invoking the receiver's backing sequence producer. -/
theorem failed_combinators_passthrough :
    ∀ (e : GoError) (d : Producer Node) (name : String),
      html.NodeSet.XGo_Node ⟨d, some e⟩ name = ⟨d, some e⟩ ∧
      html.NodeSet.XGo_Child ⟨d, some e⟩ = ⟨d, some e⟩ ∧
      html.NodeSet.XGo_Any ⟨d, some e⟩ = ⟨d, some e⟩ ∧
      html.NodeSet.XGo_Attr ⟨d, some e⟩ name = ⟨nilSeq, some e⟩ :=
  fun _ _ _ => ⟨rfl, rfl, rfl, rfl⟩

/-- C2: the claim fails on the code.  `XGo_Attr`'s missing-attribute branch
discards the consumer's verdict (`yield(...); return true`), so the produced
sequence keeps invoking the consumer after it returned false.  First conjunct:
over two attribute-less nodes, a consumer that answers false from the very
first item is nevertheless invoked twice.  Second conjunct: the observable
consequence — `XGo_0` over such a projection returns the second node's
attribute value instead of the first produced item's `NotFound` error. -/
theorem attr_ignores_stop_signal :
    produceTrace
        (html.NodeSet.XGo_Attr ⟨seqOfList [nodeA, nodeA], none⟩ "x").Data
        (fun _ => false)
      = [⟨"", some GoError.notFound⟩, ⟨"", some GoError.notFound⟩] ∧
    html.ValueSet.XGo_0
        (html.NodeSet.XGo_Attr ⟨seqOfList [nodeA, nodeB], none⟩ "x")
      = ("v", none) :=
  ⟨rfl, rfl⟩

/-- C3: `XGo_1` on ValueSets and NodeSets — terminal error when failed,
`NotFound` on an empty well-behaved sequence, the first item's value/error on
a one-item sequence, and `TooManyEntities` the moment a second item appears,
its own content notwithstanding; the result is already determined by the
first two items, so iteration stops there. -/
theorem xgo1_first_and_unique :
    ∀ (e : GoError) (dv : Producer html.Value) (dn : Producer Node)
      (v w : html.Value) (restv : List html.Value)
      (n m : Node) (restn : List Node),
      html.ValueSet.XGo_1 ⟨dv, some e⟩ = ("", some e) ∧
      html.NodeSet.XGo_1 ⟨dn, some e⟩ = (none, some e) ∧
      html.ValueSet.XGo_1 ⟨seqOfList [], none⟩ = ("", some GoError.notFound) ∧
      html.NodeSet.XGo_1 ⟨seqOfList [], none⟩ = (none, some GoError.notFound) ∧
      html.ValueSet.XGo_1 ⟨seqOfList [v], none⟩ = (v.X_0, v.X_1) ∧
      html.NodeSet.XGo_1 ⟨seqOfList [n], none⟩ = (some n, none) ∧
      (html.ValueSet.XGo_1 ⟨seqOfList (v :: w :: restv), none⟩).2
          = some GoError.multiEntities ∧
      html.ValueSet.XGo_1 ⟨seqOfList (v :: w :: restv), none⟩
          = html.ValueSet.XGo_1 ⟨seqOfList [v, w], none⟩ ∧
      (html.NodeSet.XGo_1 ⟨seqOfList (n :: m :: restn), none⟩).2
          = some GoError.multiEntities ∧
      html.NodeSet.XGo_1 ⟨seqOfList (n :: m :: restn), none⟩
          = html.NodeSet.XGo_1 ⟨seqOfList [n, m], none⟩ :=
  fun _ _ _ _ _ _ _ _ _ =>
    ⟨rfl, rfl, rfl, rfl, rfl, rfl, rfl, rfl, rfl, rfl⟩

/-- C4: `XGo_0` on ValueSets and NodeSets — terminal error when failed,
`NotFound` on an empty well-behaved sequence, and on a non-empty one the
value/error carried by the first produced item; the result coincides with the
result over the one-item truncation, since the consumer returns false right
after the first item. -/
theorem xgo0_first_or_error :
    ∀ (e : GoError) (dv : Producer html.Value) (dn : Producer Node)
      (v : html.Value) (restv : List html.Value)
      (n : Node) (restn : List Node),
      html.ValueSet.XGo_0 ⟨dv, some e⟩ = ("", some e) ∧
      html.NodeSet.XGo_0 ⟨dn, some e⟩ = (none, some e) ∧
      html.ValueSet.XGo_0 ⟨seqOfList [], none⟩ = ("", some GoError.notFound) ∧
      html.NodeSet.XGo_0 ⟨seqOfList [], none⟩ = (none, some GoError.notFound) ∧
      html.ValueSet.XGo_0 ⟨seqOfList (v :: restv), none⟩ = (v.X_0, v.X_1) ∧
      html.NodeSet.XGo_0 ⟨seqOfList (n :: restn), none⟩ = (some n, none) ∧
      html.ValueSet.XGo_0 ⟨seqOfList (v :: restv), none⟩
          = html.ValueSet.XGo_0 ⟨seqOfList [v], none⟩ ∧
      html.NodeSet.XGo_0 ⟨seqOfList (n :: restn), none⟩
          = html.NodeSet.XGo_0 ⟨seqOfList [n], none⟩ :=
  fun _ _ _ _ _ _ _ => ⟨rfl, rfl, rfl, rfl, rfl, rfl, rfl, rfl⟩

/-- C5: on an ok-state NodeSet over a well-behaved sequence, the full
production of `XGo_Attr` contains exactly one Value per receiver node, in
receiver order — the first matching attribute's value, or a `NotFound` Value
when the node lacks the attribute. -/
theorem attr_projection_per_node :
    ∀ (name : String) (L : List Node),
      produceTrace (html.NodeSet.XGo_Attr ⟨seqOfList L, none⟩ name).Data
          (fun _ => true)
        = L.map (attrProj name) :=
  fun name L => attrTrace_eq name L

/-- C6: on an ok-state NodeSet over a well-behaved sequence, `XGo_Any`
behaves exactly like the well-behaved sequence that yields, for each receiver
node in order, the node itself followed by all of its descendants in
depth-first document order — so items come once each in that order, and a
stop signal from the consumer halts production immediately, inside the
descendant loop as much as across receiver nodes. -/
theorem any_descendants_inclusive :
    ∀ (L : List Node) (σ : Type) (f : σ → Node → σ × Bool) (s : σ),
      (html.NodeSet.XGo_Any ⟨seqOfList L, none⟩).Data σ f s
        = seqOfList (anyConcat L) σ f s := by
  intro L σ f s
  show (runListB (anyStep f) (s, true) L).1.1
      = (runListB f s (anyConcat L)).1
  rw [runListB_anyStep]

/-- C7: on an ok-state NodeSet over a well-behaved sequence, `XGo_Child`
behaves exactly like the well-behaved sequence that yields the direct
children of every receiver node, concatenated in receiver order — so a stop
signal from the consumer halts production immediately, mid-way through one
node's children as much as before any later node's children. -/
theorem child_flatten_in_order :
    ∀ (L : List Node) (σ : Type) (f : σ → Node → σ × Bool) (s : σ),
      (html.NodeSet.XGo_Child ⟨seqOfList L, none⟩).Data σ f s
        = seqOfList (childConcat L) σ f s := by
  intro L σ f s
  show (runListB (childStep f) (s, true) L).1.1
      = (runListB f s (childConcat L)).1
  rw [runListB_childStep]

/-- C9: every Value emitted by the attribute projection either carries no
error, or carries exactly the `NotFound` error together with the zero-value
string. -/
theorem attr_value_exclusive :
    ∀ (name : String) (L : List Node) (v : html.Value),
      v ∈ produceTrace (html.NodeSet.XGo_Attr ⟨seqOfList L, none⟩ name).Data
          (fun _ => true) →
      v.X_1 = none ∨ (v.X_1 = some GoError.notFound ∧ v.X_0 = "") := by
  intro name L v hv
  rw [attrTrace_eq] at hv
  obtain ⟨n, _, rfl⟩ := List.mem_map.mp hv
  rcases hf : n.nAttr.find? (fun a => a.Key == name) with _ | a <;>
    simp [attrProj, hf]

/-- C9 witness: the Value produced for the node `<b x="v">` under name `x`
is a member of the projection's production and satisfies the exactly-one
invariant. -/
theorem attr_value_exclusive_witness :
    (⟨"v", none⟩ : html.Value)
        ∈ produceTrace (html.NodeSet.XGo_Attr ⟨seqOfList [nodeB], none⟩
            "x").Data (fun _ => true) ∧
      ((⟨"v", none⟩ : html.Value).X_1 = none ∨
        ((⟨"v", none⟩ : html.Value).X_1 = some GoError.notFound ∧
          (⟨"v", none⟩ : html.Value).X_0 = "")) :=
  ⟨by decide, attr_value_exclusive "x" [nodeB] ⟨"v", none⟩ (by decide)⟩

/-- C10: the generic `util.ValueSet[T]` reducers instantiated at `T = string`
agree with the specialized `html.ValueSet` reducers on every backing sequence
and every terminal-error slot. -/
theorem util_html_reducers_equiv :
    ∀ (d : Producer html.Value) (e : Option GoError),
      util.ValueSet.XGo_Enum (⟨d, e⟩ : util.ValueSet String)
          = html.ValueSet.XGo_Enum ⟨d, e⟩ ∧
      util.ValueSet.XGo_0 (⟨d, e⟩ : util.ValueSet String)
          = html.ValueSet.XGo_0 ⟨d, e⟩ ∧
      util.ValueSet.XGo_1 (⟨d, e⟩ : util.ValueSet String)
          = html.ValueSet.XGo_1 ⟨d, e⟩ := by
  intro d e
  cases e <;> exact ⟨rfl, rfl, rfl⟩

/-- C8: `Source` accepts a pre-parsed node sequence as-is without parsing,
returns an already-constructed NodeSet unchanged, hands byte, reader and
string sources to the parser — wrapping an open or parse failure as a
failed-state NodeSet carrying that error and a successful parse as a one-item
NodeSet holding the root node — and panics on any unsupported source type. -/
theorem source_normalization :
    ∀ (parse : html.ByteStream → Except GoError Node)
      (opn : String → Except GoError html.ByteStream)
      (d : Producer Node) (ns : html.NodeSet)
      (b1 b2 : html.ByteStream) (s1 s2 : String)
      (e1 e2 : GoError) (root : Node),
      parse b1 = .error e1 →
      parse b2 = .ok root →
      opn s1 = .error e2 →
      opn s2 = .ok b2 →
      (html.Source parse opn (.ofSeq d) = .ok ⟨d, none⟩ ∧
        html.Source parse opn (.ofNodeSet ns) = .ok ns ∧
        html.Source parse opn (.ofBytes b1) = .ok ⟨nilSeq, some e1⟩ ∧
        html.Source parse opn (.ofReader b1) = .ok ⟨nilSeq, some e1⟩ ∧
        html.Source parse opn (.ofBytes b2)
            = .ok ⟨fun _ yield s => (yield s root).1, none⟩ ∧
        produceTrace (html.New parse b2).Data (fun _ => true) = [root] ∧
        html.Source parse opn (.ofString s1) = .ok ⟨nilSeq, some e2⟩ ∧
        html.Source parse opn (.ofString s2) = .ok (html.New parse b2) ∧
        html.Source parse opn .unsupported
            = .panicked "dql/html.Source: unsupport source type") := by
  intro parse opn d ns b1 b2 s1 s2 e1 e2 root h1 h2 h3 h4
  refine ⟨rfl, rfl, ?_, ?_, ?_, ?_, ?_, ?_, rfl⟩
  · simp [html.Source, html.New, h1]
  · simp [html.Source, html.New, h1]
  · simp [html.Source, html.New, h2]
  · simp [produceTrace, html.New, h2]
  · simp [html.Source, h3]
  · simp [html.Source, h4]

/-- Sample root node wrapping `<a>`, standing for a parsed document. -/
def sampleRoot : Node := .mk .documentNode "" [] [nodeA]

/-- A concrete parser: the byte stream `[1]` parses to `sampleRoot`, every
other stream is a parse failure. -/
def sampleParse : html.ByteStream → Except GoError Node :=
  fun b =>
    match b with
    | [1] => .ok sampleRoot
    | _ => .error (.errNew "parse failure")

/-- A concrete stream opener: the location `"good"` opens to the byte stream
`[1]`, every other location is an open failure. -/
def sampleOpen : String → Except GoError html.ByteStream :=
  fun s =>
    match s with
    | "good" => .ok [1]
    | _ => .error (.errNew "open failure")

/-- C8 witness: the normalization cases at a concrete parser, opener, stream
and location. -/
theorem source_normalization_witness :
    html.Source sampleParse sampleOpen (.ofSeq nilSeq) = .ok ⟨nilSeq, none⟩ ∧
      html.Source sampleParse sampleOpen (.ofNodeSet ⟨nilSeq, none⟩)
          = .ok ⟨nilSeq, none⟩ ∧
      html.Source sampleParse sampleOpen (.ofBytes [0])
          = .ok ⟨nilSeq, some (.errNew "parse failure")⟩ ∧
      html.Source sampleParse sampleOpen (.ofReader [0])
          = .ok ⟨nilSeq, some (.errNew "parse failure")⟩ ∧
      html.Source sampleParse sampleOpen (.ofBytes [1])
          = .ok ⟨fun _ yield s => (yield s sampleRoot).1, none⟩ ∧
      produceTrace (html.New sampleParse [1]).Data (fun _ => true)
          = [sampleRoot] ∧
      html.Source sampleParse sampleOpen (.ofString "bad")
          = .ok ⟨nilSeq, some (.errNew "open failure")⟩ ∧
      html.Source sampleParse sampleOpen (.ofString "good")
          = .ok (html.New sampleParse [1]) ∧
      html.Source sampleParse sampleOpen .unsupported
          = .panicked "dql/html.Source: unsupport source type" :=
  source_normalization sampleParse sampleOpen nilSeq ⟨nilSeq, none⟩
    [0] [1] "bad" "good" (.errNew "parse failure") (.errNew "open failure")
    sampleRoot rfl rfl rfl rfl
